import Mathlib

/-!
# Verification of the github-mcp-web OAuth2 + MCP tool server

Shallow embedding, in Lean 4, of the Express server in the repository
(`server.js`): the OAuth2 authorization-code flow with CSRF state tracking
(`/auth/github`, `/auth/callback`, the `sessions` map and its reaper), the
MCP authentication middleware (`authenticateMCP`), the tool catalogue
(`/mcp/tools/list`) and the tool dispatcher (`/mcp/tools/call`).

JavaScript idioms are modelled explicitly: absent values are `Option`,
truthiness of strings/numbers is `truS`/`truN`, `String.split(' ')` is
`splitOnChar`, `URLSearchParams` serialization is `serializeParams` with
form-style percent-encoding, and upstream HTTP (`axios`) is an oracle
function passed to the handler, with every issued request recorded.
-/

namespace GithubMcpWeb

/-- JS truthiness of an optional string: `undefined` and `""` are falsy. -/
def truS : Option String → Bool
  | none => false
  | some s => s ≠ ""

/-- JS truthiness of an optional number: `undefined` and `0` are falsy. -/
def truN : Option Int → Bool
  | none => false
  | some n => n ≠ 0

/-- Uppercase hexadecimal digit for `n < 16`. -/
def hexDigit (n : Nat) : Char :=
  if n < 10 then Char.ofNat (48 + n) else Char.ofNat (55 + n)

/-- UTF-8 byte sequence of a Unicode code point, as natural numbers. -/
def utf8Bytes (n : Nat) : List Nat :=
  if n < 0x80 then [n]
  else if n < 0x800 then [0xC0 + n / 64, 0x80 + n % 64]
  else if n < 0x10000 then [0xE0 + n / 4096, 0x80 + (n / 64) % 64, 0x80 + n % 64]
  else [0xF0 + n / 262144, 0x80 + (n / 4096) % 64, 0x80 + (n / 64) % 64, 0x80 + n % 64]

/-- Percent-escape a list of bytes: each byte becomes `%HH` (uppercase). -/
def percentBytes (bs : List Nat) : String :=
  String.join (bs.map fun b =>
    String.mk ['%', hexDigit (b / 16), hexDigit (b % 16)])

/-- Characters left unescaped by `encodeURIComponent`:
alphanumerics and `- _ . ! ~ * ' ( )`. -/
def isUriUnreserved (c : Char) : Bool :=
  c.isAlphanum || c = '-' || c = '_' || c = '.' || c = '!' || c = '~' ||
  c = '*' || c = Char.ofNat 39 || c = '(' || c = ')'

/-- JS `encodeURIComponent`, per character. -/
def encodeUriChar (c : Char) : String :=
  if isUriUnreserved c then String.singleton c else percentBytes (utf8Bytes c.toNat)

/-- JS `encodeURIComponent` on a whole string. -/
def encodeURIComponent (s : String) : String :=
  String.join (s.data.map encodeUriChar)

/-- Characters left unescaped by `URLSearchParams` serialization:
alphanumerics and `* - . _` (space becomes `+`). -/
def isFormSafe (c : Char) : Bool :=
  c.isAlphanum || c = '*' || c = '-' || c = '.' || c = '_'

/-- `URLSearchParams` percent-encoding, per character. -/
def formEncodeChar (c : Char) : String :=
  if c = ' ' then "+"
  else if isFormSafe c then String.singleton c
  else percentBytes (utf8Bytes c.toNat)

/-- `URLSearchParams` percent-encoding of a whole string. -/
def formEncode (s : String) : String :=
  String.join (s.data.map formEncodeChar)

/-- `URLSearchParams.toString()`: `k=v` pairs joined with `&`,
keys and values form-encoded. -/
def serializeParams (ps : List (String × String)) : String :=
  String.intercalate "&" (ps.map fun p => formEncode p.1 ++ "=" ++ formEncode p.2)

/-- Split a character list at every occurrence of `sep`
(accumulator-based, mirrors JS `String.split` with a one-character
separator; `n` separators yield `n+1` segments). -/
def splitOnCharAux (sep : Char) : List Char → List Char → List (List Char)
  | [], acc => [acc.reverse]
  | c :: cs, acc =>
    if c = sep then acc.reverse :: splitOnCharAux sep cs []
    else splitOnCharAux sep cs (c :: acc)

/-- JS `String.split(sep)` for a one-character separator, on `List Char`. -/
def splitOnChar (sep : Char) (l : List Char) : List (List Char) :=
  splitOnCharAux sep l []

/-- Split a character list at the first occurrence of `sep`; if `sep` does
not occur, the second component is empty. -/
def splitFirstAux (sep : Char) : List Char → List Char → List Char × List Char
  | [], acc => (acc.reverse, [])
  | c :: cs, acc =>
    if c = sep then (acc.reverse, cs)
    else splitFirstAux sep cs (c :: acc)

/-- Split at the first occurrence of `sep`. -/
def splitFirst (sep : Char) (l : List Char) : List Char × List Char :=
  splitFirstAux sep l []

/-- Value of a hexadecimal digit character, if it is one. -/
def hexVal (c : Char) : Option Nat :=
  if 48 ≤ c.toNat ∧ c.toNat ≤ 57 then some (c.toNat - 48)
  else if 65 ≤ c.toNat ∧ c.toNat ≤ 70 then some (c.toNat - 55)
  else if 97 ≤ c.toNat ∧ c.toNat ≤ 102 then some (c.toNat - 87)
  else none

/-- Decode `%HH` escapes in a character list (single-byte escapes, which
covers every ASCII payload; a malformed escape is left as-is). -/
def decodePercentChars : List Char → List Char
  | [] => []
  | '%' :: h1 :: h2 :: rest =>
    match hexVal h1, hexVal h2 with
    | some a, some b => Char.ofNat (16 * a + b) :: decodePercentChars rest
    | _, _ => '%' :: decodePercentChars (h1 :: h2 :: rest)
  | c :: rest => c :: decodePercentChars rest

/-- Parse the query string of a URL: everything after the first `?`,
split on `&`, each segment split at its first `=`. -/
def parseQuery (url : String) : List (List Char × List Char) :=
  (splitOnChar '&' (splitFirst '?' url.data).2).map (splitFirst '=')

/-- Look up a query parameter by name and percent-decode its value. -/
def queryParam (url : String) (key : String) : Option String :=
  ((parseQuery url).find? fun p => p.1 = key.data).map
    fun p => String.mk (decodePercentChars p.2)

/-- Comma-join a list of scope names (the wire format of the `scopes`
query parameter and of the stored `sessionData.scopes`). -/
def joinComma (l : List String) : String :=
  String.intercalate "," l

/-- Split a comma-joined scope string back into scope names. -/
def splitComma (s : String) : List String :=
  (splitOnChar ',' s.data).map String.mk

/-! ## State store (the `sessions` map) -/

/-- One pending authorization: `sessions.set(state, { timestamp, scopes })`. -/
structure SessionData where
  timestamp : Int
  scopes : String
deriving DecidableEq, Repr

/-- The global `sessions` map, as an association list keyed by state token. -/
abbrev Sessions := List (String × SessionData)

/-- `sessions.get(k)`. -/
def sessionsGet (m : Sessions) (k : String) : Option SessionData :=
  (m.find? fun p => p.1 = k).map fun p => p.2

/-- `sessions.delete(k)`. -/
def sessionsDelete (m : Sessions) (k : String) : Sessions :=
  m.filter fun p => !(p.1 == k)

/-- `sessions.set(k, v)` (overwrites any previous entry for `k`). -/
def sessionsSet (m : Sessions) (k : String) (v : SessionData) : Sessions :=
  sessionsDelete m k ++ [(k, v)]

/-- Expiry window of a pending authorization: 10 minutes in milliseconds. -/
def expiryMs : Int := 10 * 60 * 1000

/-- One pass of the background reaper (`setInterval` body): delete every
entry with `now - session.timestamp > 10 * 60 * 1000`. -/
def sweepSessions (now : Int) (m : Sessions) : Sessions :=
  m.filter fun p => !decide (now - p.2.timestamp > expiryMs)

/-! ## OAuth2 flow -/

/-- Environment configuration the OAuth routes read. -/
structure OAuthConfig where
  clientId : String
  redirectUri : String

/-- The authorization URL built by `GET /auth/github`:
`https://github.com/login/oauth/authorize?client_id=...&redirect_uri=...`
`&scope=...&state=...`, with `redirect_uri` and `scope` passed through
`encodeURIComponent` and `client_id` and `state` interpolated raw. -/
def buildAuthorizationUrl (cfg : OAuthConfig) (scopes state : String) : String :=
  "https://github.com/login/oauth/authorize?" ++
  "client_id=" ++ cfg.clientId ++ "&" ++
  "redirect_uri=" ++ encodeURIComponent cfg.redirectUri ++ "&" ++
  "scope=" ++ encodeURIComponent scopes ++ "&" ++
  "state=" ++ state

/-- Body of the token-exchange response (`tokenResponse.data`), fields
possibly absent. -/
structure TokenData where
  access_token : Option String
  token_type : Option String
  scope : Option String
deriving DecidableEq, Repr

/-- Outcome of the `axios.post` token exchange: a 2xx body, or a thrown
error (non-2xx or network failure). -/
inductive ExchangeResult where
  | ok (data : TokenData)
  | err
deriving DecidableEq, Repr

/-- The GitHub user object fields the server reads (`user.email` may be
JSON `null`). -/
structure GHUser where
  login : String
  name : String
  avatar_url : String
  email : Option String
deriving DecidableEq, Repr

/-- Outcome of the `axios.get('https://api.github.com/user')` identity
fetch: a user object, or a thrown error. -/
inductive UserFetchResult where
  | ok (user : GHUser)
  | err
deriving DecidableEq, Repr

/-- Minimal JSON string escaping (quote and backslash). -/
def jsonEscapeChar (c : Char) : String :=
  if c = '"' then "\\\""
  else if c = '\\' then "\\\\"
  else String.singleton c

/-- A JSON string literal. -/
def jsonStr (s : String) : String :=
  "\"" ++ String.join (s.data.map jsonEscapeChar) ++ "\""

/-- `JSON.stringify({ login, name, avatar_url, email })` as built in the
success redirect of `/auth/callback`. -/
def jsonUser (u : GHUser) : String :=
  "\x7b\"login\":" ++ jsonStr u.login ++
  ",\"name\":" ++ jsonStr u.name ++
  ",\"avatar_url\":" ++ jsonStr u.avatar_url ++
  ",\"email\":" ++ (match u.email with
    | some e => jsonStr e
    | none => "null") ++ "\x7d"

/-- Response of `/auth/callback`: always a redirect to `/`, either with an
`error=<code>` query parameter or with the success parameter list (in the
order `URLSearchParams` receives them). -/
inductive CallbackOutcome where
  | errorRedirect (code : String)
  | successRedirect (params : List (String × String))
deriving DecidableEq, Repr

/-- What one `/auth/callback` request did: its response, the `sessions`
map it leaves behind, and whether each of the two outbound HTTP calls
(token exchange, identity fetch) was issued. -/
structure CallbackResult where
  outcome : CallbackOutcome
  sessions : Sessions
  exchangeCalled : Bool
  userFetchCalled : Bool
deriving DecidableEq, Repr

/-- The `/auth/callback` handler. `code`, `state`, `error` are the query
parameters (absent = `none`); `exchange` and `userFetch` are the outcomes
the two upstream calls would produce if issued. Mirrors the source: the
`error` guard, the missing-parameter guard, `sessions.get` presence check,
`sessions.delete`, then inside `try`: exchange (throwing on falsy
`access_token`), identity fetch, success redirect with
`scope: scope || sessionData.scopes`; any throw is caught and answered
with `oauth_exchange_failed`. -/
def handleCallback (m : Sessions) (code state error : Option String)
    (exchange : ExchangeResult) (userFetch : UserFetchResult) : CallbackResult :=
  if truS error then
    ⟨.errorRedirect (error.getD ""), m, false, false⟩
  else if !truS code || !truS state then
    ⟨.errorRedirect "missing_code_or_state", m, false, false⟩
  else
    match sessionsGet m (state.getD "") with
    | none => ⟨.errorRedirect "invalid_state", m, false, false⟩
    | some sd =>
      let m' := sessionsDelete m (state.getD "")
      match exchange with
      | .err => ⟨.errorRedirect "oauth_exchange_failed", m', true, false⟩
      | .ok td =>
        match td.access_token with
        | none => ⟨.errorRedirect "oauth_exchange_failed", m', true, false⟩
        | some tok =>
          if tok = "" then
            ⟨.errorRedirect "oauth_exchange_failed", m', true, false⟩
          else
            match userFetch with
            | .err => ⟨.errorRedirect "oauth_exchange_failed", m', true, true⟩
            | .ok u =>
              ⟨.successRedirect
                [("success", "true"),
                 ("access_token", tok),
                 ("user", jsonUser u),
                 ("scope", match td.scope with
                   | some sc => if sc = "" then sd.scopes else sc
                   | none => sd.scopes)],
               m', true, true⟩

/-! ## MCP authentication middleware -/

/-- `authenticateMCP`: `const token = authHeader && authHeader.split(' ')[1]`,
then 401 if the token is falsy. Returns `some token` when the request is
accepted, `none` when it is rejected with HTTP 401. The scheme word of the
header is never inspected. -/
def authenticateMCP (authHeader : Option String) : Option String :=
  match authHeader with
  | none => none
  | some h =>
    match (splitOnChar ' ' h.data).get? 1 with
    | none => none
    | some t => if t = [] then none else some (String.mk t)

/-! ## Tool catalogue (`POST /mcp/tools/list`) -/

/-- One parameter's schema inside a tool's `inputSchema.properties`. -/
structure ParamSchema where
  type : String
  enum : Option (List String)
  min : Option Int
  max : Option Int
  default : Option String
deriving DecidableEq, Repr

/-- A plain string parameter with no constraints. -/
def strParam : ParamSchema := ⟨"string", none, none, none, none⟩

/-- A string-array parameter with no constraints. -/
def strArrayParam : ParamSchema := ⟨"array", none, none, none, none⟩

/-- One entry of the tools list: name, description, properties and
required parameter names of its `inputSchema`. -/
structure ToolDescriptor where
  name : String
  description : String
  properties : List (String × ParamSchema)
  required : List String
deriving DecidableEq, Repr

/-- The static tool catalogue returned by `POST /mcp/tools/list`,
in source order with every schema constraint transcribed. -/
def toolsList : List ToolDescriptor :=
  [⟨"get_user", "Get the authenticated user's GitHub profile information",
    [], []⟩,
   ⟨"list_repositories", "List repositories for the authenticated user",
    [("type", ⟨"string", some ["all", "owner", "member"], none, none, some "owner"⟩),
     ("sort", ⟨"string", some ["created", "updated", "pushed", "full_name"], none, none, some "updated"⟩),
     ("per_page", ⟨"number", none, some 1, some 100, some "30"⟩)],
    []⟩,
   ⟨"get_repository", "Get detailed information about a specific repository",
    [("owner", strParam), ("repo", strParam)],
    ["owner", "repo"]⟩,
   ⟨"list_issues", "List issues for a repository",
    [("owner", strParam), ("repo", strParam),
     ("state", ⟨"string", some ["open", "closed", "all"], none, none, some "open"⟩),
     ("per_page", ⟨"number", none, some 1, some 100, some "30"⟩)],
    ["owner", "repo"]⟩,
   ⟨"create_issue", "Create a new issue in a repository",
    [("owner", strParam), ("repo", strParam), ("title", strParam),
     ("body", strParam), ("labels", strArrayParam)],
    ["owner", "repo", "title"]⟩,
   ⟨"list_pull_requests", "List pull requests for a repository",
    [("owner", strParam), ("repo", strParam),
     ("state", ⟨"string", some ["open", "closed", "all"], none, none, some "open"⟩),
     ("per_page", ⟨"number", none, some 1, some 100, some "30"⟩)],
    ["owner", "repo"]⟩,
   ⟨"get_file_contents", "Get the contents of a file from a repository",
    [("owner", strParam), ("repo", strParam), ("path", strParam), ("ref", strParam)],
    ["owner", "repo", "path"]⟩,
   ⟨"list_commits", "List commits for a repository",
    [("owner", strParam), ("repo", strParam), ("sha", strParam),
     ("per_page", ⟨"number", none, some 1, some 100, some "30"⟩)],
    ["owner", "repo"]⟩]

/-- Look up a tool descriptor by name. -/
def getTool (n : String) : Option ToolDescriptor :=
  toolsList.find? fun t => t.name = n

/-! ## Tool dispatcher (`POST /mcp/tools/call`) -/

/-- The `arguments` object of a tool invocation; every field the switch
reads, absent fields being `none`. -/
structure ToolArgs where
  owner : Option String := none
  repo : Option String := none
  title : Option String := none
  body : Option String := none
  fpath : Option String := none
  ref : Option String := none
  sha : Option String := none
  type : Option String := none
  sort : Option String := none
  state : Option String := none
  per_page : Option Int := none
  labels : Option (List String) := none
deriving DecidableEq, Repr

/-- Request body of the `create_issue` POST:
`{ title, body: args.body || '', labels: args.labels || [] }`. -/
structure IssueBody where
  title : String
  body : String
  labels : List String
deriving DecidableEq, Repr

/-- One outbound request issued through `callGitHubAPI`. -/
structure UpstreamCall where
  method : String
  url : String
  headers : List (String × String)
  body : Option IssueBody
deriving DecidableEq, Repr

/-- The fixed headers `callGitHubAPI` attaches to every request. -/
def githubHeaders (token : String) : List (String × String) :=
  [("Authorization", "Bearer " ++ token),
   ("Accept", "application/vnd.github+json"),
   ("User-Agent", "GitHub-MCP-Server")]

/-- Build the request `callGitHubAPI(token, endpoint, method, data)`
issues: base URL prefix, fixed headers, body attached only for
POST/PUT/PATCH when data is present. -/
def mkCall (token endpoint method : String) (data : Option IssueBody) : UpstreamCall :=
  ⟨method, "https://api.github.com/" ++ endpoint, githubHeaders token,
   if method = "POST" || method = "PUT" || method = "PATCH" then data else none⟩

/-- Outcome of an upstream request: the parsed 2xx body (kept as its
serialized text), or a thrown error carrying `error.message`. -/
inductive UpstreamResult where
  | ok (data : String)
  | err (msg : String)
deriving DecidableEq, Repr

/-- The JSON content item `{ type: 'text', text }` of a tool response. -/
structure ContentItem where
  type : String
  text : String
deriving DecidableEq, Repr

/-- Response of `POST /mcp/tools/call` (after authentication): an HTTP
error status with an `error` (and optional `details`) body, or a 200 with
`{ content: [...] }`. The envelope has no `isError` field. -/
inductive DispatchResponse where
  | httpError (status : Nat) (error : String) (details : Option String)
  | content (items : List ContentItem)
deriving DecidableEq, Repr

/-- `params.append(key, value)` guarded by `if (args?.x)` for a string
argument: appended only when truthy. -/
def appendIfS (ps : List (String × String)) (key : String) (v : Option String) :
    List (String × String) :=
  match v with
  | some s => if s = "" then ps else ps ++ [(key, s)]
  | none => ps

/-- `params.append(key, value)` guarded by `if (args?.x)` for a numeric
argument: appended (stringified) only when truthy. -/
def appendIfN (ps : List (String × String)) (key : String) (v : Option Int) :
    List (String × String) :=
  match v with
  | some n => if n = 0 then ps else ps ++ [(key, toString n)]
  | none => ps

/-- `result = await callGitHubAPI(...)` followed by either the 200
content envelope (`JSON.stringify` of the body) or the catch block's
`500 { error: 'Tool execution failed', details: error.message }`. -/
def runCall (call : UpstreamCall) (upstream : UpstreamCall → UpstreamResult) :
    DispatchResponse × List UpstreamCall :=
  match upstream call with
  | .ok d => (.content [⟨"text", d⟩], [call])
  | .err m => (.httpError 500 "Tool execution failed" (some m), [call])

/-- The switch of the `POST /mcp/tools/call` handler over tool names,
with each case's required-argument checks and query building, the
upstream call, and the catch. Returns the response together with the
list of upstream requests issued (in order), so that absence of network
activity is observable. -/
def toolsCallNamed (token : String) (n : String) (args : Option ToolArgs)
    (upstream : UpstreamCall → UpstreamResult) : DispatchResponse × List UpstreamCall :=
    if n = "" then (.httpError 400 "Tool name is required" none, [])
    else if n = "get_user" then
      runCall (mkCall token "user" "GET" none) upstream
    else if n = "list_repositories" then
      let ps := appendIfN (appendIfS (appendIfS [] "type" (args.bind fun a => a.type))
        "sort" (args.bind fun a => a.sort)) "per_page" (args.bind fun a => a.per_page)
      runCall (mkCall token ("user/repos?" ++ serializeParams ps) "GET" none) upstream
    else if n = "get_repository" then
      if !truS (args.bind fun a => a.owner) || !truS (args.bind fun a => a.repo) then
        (.httpError 400 "owner and repo are required" none, [])
      else
        runCall (mkCall token
          ("repos/" ++ (args.bind fun a => a.owner).getD "" ++ "/" ++
            (args.bind fun a => a.repo).getD "") "GET" none) upstream
    else if n = "list_issues" then
      if !truS (args.bind fun a => a.owner) || !truS (args.bind fun a => a.repo) then
        (.httpError 400 "owner and repo are required" none, [])
      else
        let ps := appendIfN (appendIfS [] "state" (args.bind fun a => a.state))
          "per_page" (args.bind fun a => a.per_page)
        runCall (mkCall token
          ("repos/" ++ (args.bind fun a => a.owner).getD "" ++ "/" ++
            (args.bind fun a => a.repo).getD "" ++ "/issues?" ++ serializeParams ps)
          "GET" none) upstream
    else if n = "create_issue" then
      if !truS (args.bind fun a => a.owner) || !truS (args.bind fun a => a.repo) ||
          !truS (args.bind fun a => a.title) then
        (.httpError 400 "owner, repo, and title are required" none, [])
      else
        runCall (mkCall token
          ("repos/" ++ (args.bind fun a => a.owner).getD "" ++ "/" ++
            (args.bind fun a => a.repo).getD "" ++ "/issues") "POST"
          (some ⟨(args.bind fun a => a.title).getD "",
            ((args.bind fun a => a.body).getD ""),
            ((args.bind fun a => a.labels).getD [])⟩)) upstream
    else if n = "list_pull_requests" then
      if !truS (args.bind fun a => a.owner) || !truS (args.bind fun a => a.repo) then
        (.httpError 400 "owner and repo are required" none, [])
      else
        let ps := appendIfN (appendIfS [] "state" (args.bind fun a => a.state))
          "per_page" (args.bind fun a => a.per_page)
        runCall (mkCall token
          ("repos/" ++ (args.bind fun a => a.owner).getD "" ++ "/" ++
            (args.bind fun a => a.repo).getD "" ++ "/pulls?" ++ serializeParams ps)
          "GET" none) upstream
    else if n = "get_file_contents" then
      if !truS (args.bind fun a => a.owner) || !truS (args.bind fun a => a.repo) ||
          !truS (args.bind fun a => a.fpath) then
        (.httpError 400 "owner, repo, and path are required" none, [])
      else
        let ps := appendIfS [] "ref" (args.bind fun a => a.ref)
        runCall (mkCall token
          ("repos/" ++ (args.bind fun a => a.owner).getD "" ++ "/" ++
            (args.bind fun a => a.repo).getD "" ++ "/contents/" ++
            (args.bind fun a => a.fpath).getD "" ++ "?" ++ serializeParams ps)
          "GET" none) upstream
    else if n = "list_commits" then
      if !truS (args.bind fun a => a.owner) || !truS (args.bind fun a => a.repo) then
        (.httpError 400 "owner and repo are required" none, [])
      else
        let ps := appendIfN (appendIfS [] "sha" (args.bind fun a => a.sha))
          "per_page" (args.bind fun a => a.per_page)
        runCall (mkCall token
          ("repos/" ++ (args.bind fun a => a.owner).getD "" ++ "/" ++
            (args.bind fun a => a.repo).getD "" ++ "/commits?" ++ serializeParams ps)
          "GET" none) upstream
    else
      (.httpError 400 ("Unknown tool: " ++ n) none, [])

/-- The `POST /mcp/tools/call` handler: the `!name` guard, then the
switch on the tool name (`toolsCallNamed`). -/
def toolsCall (token : String) (name : Option String) (args : Option ToolArgs)
    (upstream : UpstreamCall → UpstreamResult) : DispatchResponse × List UpstreamCall :=
  match name with
  | none => (.httpError 400 "Tool name is required" none, [])
  | some n => toolsCallNamed token n args upstream

/-! ## Lemmas about the state store -/

/-- After `sessions.delete(k)`, `sessions.get(k)` is `undefined`. -/
theorem sessionsGet_sessionsDelete (m : Sessions) (k : String) :
    sessionsGet (sessionsDelete m k) k = none := by
  induction m with
  | nil => rfl
  | cons p t ih =>
    by_cases h : p.1 = k
    · have hfil : sessionsDelete (p :: t) k = sessionsDelete t k := by
        simp [sessionsDelete, List.filter_cons, h]
      rw [hfil]
      exact ih
    · simp [sessionsDelete, sessionsGet, List.filter_cons, List.find?, h, ih]

/-- After one reaper pass, no entry still reachable in the map is older
than the 10-minute window. -/
theorem sweep_removes_expired (now : Int) (m : Sessions) (s : String)
    (sd : SessionData) (h : sessionsGet (sweepSessions now m) s = some sd) :
    now - sd.timestamp ≤ expiryMs := by
  unfold sessionsGet sweepSessions at h
  rcases Option.map_eq_some'.mp h with ⟨p, hp, hps⟩
  have hmem := List.mem_of_find?_eq_some hp
  have hkeep := (List.mem_filter.mp hmem).2
  simp only [Bool.not_eq_true', decide_eq_false_iff_not, not_lt] at hkeep
  exact hps ▸ hkeep

/-- Once the guards pass and the pending entry is present, the callback
handler deletes the entry, issues the token exchange, and never answers
`invalid_state` — whatever the two upstream calls return. -/
theorem handleCallback_found (m : Sessions) (s c : String) (ex : ExchangeResult)
    (uf : UserFetchResult) (sd : SessionData) (hs : s ≠ "") (hc : c ≠ "")
    (hm : sessionsGet m s = some sd) :
    (handleCallback m (some c) (some s) none ex uf).sessions = sessionsDelete m s ∧
    (handleCallback m (some c) (some s) none ex uf).exchangeCalled = true ∧
    (handleCallback m (some c) (some s) none ex uf).outcome ≠
      CallbackOutcome.errorRedirect "invalid_state" := by
  have h1 : truS (some c) = true := by simp [truS, hc]
  have h2 : truS (some s) = true := by simp [truS, hs]
  rcases ex with ⟨⟨at?, tt?, sc?⟩⟩ | _
  · rcases at? with _ | tok
    · refine ⟨?_, ?_, ?_⟩ <;> simp [handleCallback, h1, h2, hm, truS, hs, hc]
    · by_cases htok : tok = "" <;> rcases uf with ⟨u⟩ | _ <;>
        refine ⟨?_, ?_, ?_⟩ <;> simp [handleCallback, h1, h2, hm, truS, hs, hc, htok]
  · refine ⟨?_, ?_, ?_⟩ <;> simp [handleCallback, h1, h2, hm, truS, hs, hc]

/-! ## Claims about the OAuth callback -/

/-- C1: a state token is accepted by the callback handler at most once.
If a callback with state `s` passes the state-validation step (the
pending entry is found — after which it is deleted), then a second
callback presenting the same `s`, whatever its code and whatever the
upstream would answer, is rejected with the `invalid_state` error, leaves
the store as it was, and performs no token exchange. -/
theorem callback_state_single_use (m : Sessions) (s c c2 : String)
    (ex ex2 : ExchangeResult) (uf uf2 : UserFetchResult) (sd : SessionData)
    (hs : s ≠ "") (hc : c ≠ "") (hc2 : c2 ≠ "")
    (hm : sessionsGet m s = some sd) :
    handleCallback (handleCallback m (some c) (some s) none ex uf).sessions
        (some c2) (some s) none ex2 uf2 =
      ⟨CallbackOutcome.errorRedirect "invalid_state",
       (handleCallback m (some c) (some s) none ex uf).sessions, false, false⟩ := by
  have hsess := (handleCallback_found m s c ex uf sd hs hc hm).1
  rw [hsess]
  have hnone : sessionsGet (sessionsDelete m s) s = none :=
    sessionsGet_sessionsDelete m s
  have h1 : truS (some c2) = true := by simp [truS, hc2]
  have h2 : truS (some s) = true := by simp [truS, hs]
  simp [handleCallback, h1, h2, hnone, truS, hs, hc2]

/-- Witness for C1 at a concrete store and inputs. -/
theorem callback_state_single_use_witness :
    ("s" : String) ≠ "" ∧ ("c" : String) ≠ "" ∧ ("c2" : String) ≠ "" ∧
    sessionsGet [("s", ⟨0, "repo,user"⟩)] "s" = some ⟨0, "repo,user"⟩ ∧
    handleCallback
        (handleCallback [("s", ⟨0, "repo,user"⟩)] (some "c") (some "s") none
          ExchangeResult.err UserFetchResult.err).sessions
        (some "c2") (some "s") none ExchangeResult.err UserFetchResult.err =
      ⟨CallbackOutcome.errorRedirect "invalid_state",
       (handleCallback [("s", ⟨0, "repo,user"⟩)] (some "c") (some "s") none
         ExchangeResult.err UserFetchResult.err).sessions, false, false⟩ :=
  ⟨by decide, by decide, by decide, by decide,
   callback_state_single_use [("s", ⟨0, "repo,user"⟩)] "s" "c" "c2"
     ExchangeResult.err ExchangeResult.err UserFetchResult.err UserFetchResult.err
     ⟨0, "repo,user"⟩ (by decide) (by decide) (by decide) (by decide)⟩

/-- C2, counterexample to the claim as stated: a pending entry created at
time `0` is still present at time `11 * 60 * 1000` (more than 10 minutes
later, first conjunct), yet presenting its state to the callback handler
succeeds — the handler consumes the entry and completes the flow with the
success redirect instead of failing with any expired-state error. The
handler never reads the clock; no `ExpiredState` code exists anywhere in
the server (the callback's only error codes are `access_denied`-style
pass-through, `missing_code_or_state`, `invalid_state`,
`oauth_exchange_failed`). -/
theorem expired_entry_accepted_cex :
    ((11 * 60 * 1000 : Int) - (0 : Int) > expiryMs) ∧
    handleCallback [("s", ⟨0, "repo,user"⟩)] (some "c") (some "s") none
        (ExchangeResult.ok ⟨some "tok", some "bearer", some "repo"⟩)
        (UserFetchResult.ok ⟨"octo", "Octo", "u", none⟩) =
      ⟨CallbackOutcome.successRedirect
         [("success", "true"), ("access_token", "tok"),
          ("user", jsonUser ⟨"octo", "Octo", "u", none⟩), ("scope", "repo")],
       [], true, true⟩ :=
  ⟨by decide, rfl⟩

/-- C2 (amended): the callback's state validation checks presence only,
never age — an entry older than 10 minutes that the reaper has not yet
swept is consumed and accepted (the token exchange is issued and the
answer is not `invalid_state`; there is no expired-state error). Expiry
is enforced solely by the background reaper: after a sweep at time `now`,
every entry still in the store is at most 10 minutes old. -/
theorem consumePending_no_expiry_check (m : Sessions) (s c : String) (now : Int)
    (ex : ExchangeResult) (uf : UserFetchResult) (sd : SessionData)
    (hs : s ≠ "") (hc : c ≠ "") (hm : sessionsGet m s = some sd)
    (hexp : now - sd.timestamp > expiryMs) :
    (handleCallback m (some c) (some s) none ex uf).exchangeCalled = true ∧
    (handleCallback m (some c) (some s) none ex uf).outcome ≠
      CallbackOutcome.errorRedirect "invalid_state" ∧
    ∀ sd2 : SessionData, sessionsGet (sweepSessions now m) s = some sd2 →
      now - sd2.timestamp ≤ expiryMs :=
  ⟨(handleCallback_found m s c ex uf sd hs hc hm).2.1,
   (handleCallback_found m s c ex uf sd hs hc hm).2.2,
   fun sd2 h => sweep_removes_expired now m s sd2 h⟩

/-- Witness for C2 (amended) at a concrete expired entry. -/
theorem consumePending_no_expiry_check_witness :
    ("s" : String) ≠ "" ∧ ("c" : String) ≠ "" ∧
    sessionsGet [("s", ⟨0, "repo,user"⟩)] "s" = some ⟨0, "repo,user"⟩ ∧
    ((11 * 60 * 1000 : Int) - (0 : Int) > expiryMs) ∧
    ((handleCallback [("s", ⟨0, "repo,user"⟩)] (some "c") (some "s") none
        ExchangeResult.err UserFetchResult.err).exchangeCalled = true ∧
      (handleCallback [("s", ⟨0, "repo,user"⟩)] (some "c") (some "s") none
        ExchangeResult.err UserFetchResult.err).outcome ≠
        CallbackOutcome.errorRedirect "invalid_state" ∧
      ∀ sd2 : SessionData,
        sessionsGet (sweepSessions (11 * 60 * 1000) [("s", ⟨0, "repo,user"⟩)]) "s" =
          some sd2 → (11 * 60 * 1000 : Int) - sd2.timestamp ≤ expiryMs) :=
  ⟨by decide, by decide, by decide, by decide,
   consumePending_no_expiry_check [("s", ⟨0, "repo,user"⟩)] "s" "c" (11 * 60 * 1000)
     ExchangeResult.err UserFetchResult.err ⟨0, "repo,user"⟩
     (by decide) (by decide) (by decide) (by decide)⟩

/-- C5, counterexample to the claim as stated: with the pending entry
present, the token exchange succeeding (access token `"tok"` received)
and the identity fetch failing, the handler answers the generic
`oauth_exchange_failed` error redirect — not an `IdentityFetchFailed`
report — and the redirect carries no access token: the grant is
discarded, not returned to the caller. -/
theorem identity_fetch_failure_cex :
    handleCallback [("s", ⟨0, "repo"⟩)] (some "c") (some "s") none
        (ExchangeResult.ok ⟨some "tok", some "bearer", some "repo"⟩)
        UserFetchResult.err =
      ⟨CallbackOutcome.errorRedirect "oauth_exchange_failed", [], true, true⟩ :=
  rfl

/-- C5 (amended): if the token exchange succeeds but the identity fetch
fails, the single `try/catch` around both calls catches the failure and
reports it as `oauth_exchange_failed`; the freshly obtained token is
discarded (the error redirect carries no token), for any store, state,
code and token-exchange payload. -/
theorem identity_fetch_failure_discards_grant (m : Sessions) (s c tok : String)
    (tt? sc? : Option String) (sd : SessionData)
    (hs : s ≠ "") (hc : c ≠ "") (htok : tok ≠ "")
    (hm : sessionsGet m s = some sd) :
    handleCallback m (some c) (some s) none
        (ExchangeResult.ok ⟨some tok, tt?, sc?⟩) UserFetchResult.err =
      ⟨CallbackOutcome.errorRedirect "oauth_exchange_failed",
       sessionsDelete m s, true, true⟩ := by
  have h1 : truS (some c) = true := by simp [truS, hc]
  have h2 : truS (some s) = true := by simp [truS, hs]
  simp [handleCallback, h1, h2, hm, truS, hs, hc, htok]

/-- Witness for C5 (amended) at concrete inputs. -/
theorem identity_fetch_failure_discards_grant_witness :
    ("s" : String) ≠ "" ∧ ("c" : String) ≠ "" ∧ ("tok" : String) ≠ "" ∧
    sessionsGet [("s", ⟨0, "repo"⟩)] "s" = some ⟨0, "repo"⟩ ∧
    handleCallback [("s", ⟨0, "repo"⟩)] (some "c") (some "s") none
        (ExchangeResult.ok ⟨some "tok", some "bearer", some "repo"⟩)
        UserFetchResult.err =
      ⟨CallbackOutcome.errorRedirect "oauth_exchange_failed",
       sessionsDelete [("s", ⟨0, "repo"⟩)] "s", true, true⟩ :=
  ⟨by decide, by decide, by decide, by decide,
   identity_fetch_failure_discards_grant [("s", ⟨0, "repo"⟩)] "s" "c" "tok"
     (some "bearer") (some "repo") ⟨0, "repo"⟩
     (by decide) (by decide) (by decide) (by decide)⟩

/-- C6: a callback carrying a (truthy) `error` query parameter is
answered immediately with that error code in the redirect, before any
other processing: the state store is returned exactly as it was (no
entry looked up, deleted or inserted) and neither upstream call is
issued — for every store and every other parameter. -/
theorem error_param_short_circuits (m : Sessions) (code state : Option String)
    (e : String) (ex : ExchangeResult) (uf : UserFetchResult) (he : e ≠ "") :
    handleCallback m code state (some e) ex uf =
      ⟨CallbackOutcome.errorRedirect e, m, false, false⟩ := by
  have h : truS (some e) = true := by simp [truS, he]
  simp [handleCallback, h]

/-- Witness for C6: `error=access_denied` with a pending entry in the
store; the redirect carries `access_denied` and the store is unchanged. -/
theorem error_param_short_circuits_witness :
    ("access_denied" : String) ≠ "" ∧
    handleCallback [("s", ⟨0, "repo"⟩)] (some "c") (some "s")
        (some "access_denied") ExchangeResult.err UserFetchResult.err =
      ⟨CallbackOutcome.errorRedirect "access_denied",
       [("s", ⟨0, "repo"⟩)], false, false⟩ :=
  ⟨by decide,
   error_param_short_circuits [("s", ⟨0, "repo"⟩)] (some "c") (some "s")
     "access_denied" ExchangeResult.err UserFetchResult.err (by decide)⟩

/-- C10: on a successful callback the redirect parameters are exactly
`success=true`, the access token, the JSON-encoded user, and a `scope`
that equals the token-exchange response's `scope` when that value is
truthy (present and non-empty) and falls back to the scopes stored in
the pending authorization otherwise (`scope || sessionData.scopes`). -/
theorem success_redirect_scope_fallback (m : Sessions) (s c tok : String)
    (tt? sc? : Option String) (sd : SessionData) (u : GHUser)
    (hs : s ≠ "") (hc : c ≠ "") (htok : tok ≠ "")
    (hm : sessionsGet m s = some sd) :
    (handleCallback m (some c) (some s) none
        (ExchangeResult.ok ⟨some tok, tt?, sc?⟩) (UserFetchResult.ok u)).outcome =
      CallbackOutcome.successRedirect
        [("success", "true"), ("access_token", tok), ("user", jsonUser u),
         ("scope", if truS sc? then sc?.getD "" else sd.scopes)] := by
  have h1 : truS (some c) = true := by simp [truS, hc]
  have h2 : truS (some s) = true := by simp [truS, hs]
  rcases sc? with _ | sc
  · simp [handleCallback, h1, h2, hm, truS, hs, hc, htok]
  · by_cases hsc : sc = "" <;>
      simp [handleCallback, h1, h2, hm, truS, hs, hc, htok, hsc]

/-- Witness for C10: one success redirect with a truthy exchange scope
(used as-is) and one with an absent exchange scope (stored scopes used). -/
theorem success_redirect_scope_fallback_witness :
    ("s" : String) ≠ "" ∧ ("c" : String) ≠ "" ∧ ("tok" : String) ≠ "" ∧
    sessionsGet [("s", ⟨0, "repo,user"⟩)] "s" = some ⟨0, "repo,user"⟩ ∧
    (handleCallback [("s", ⟨0, "repo,user"⟩)] (some "c") (some "s") none
        (ExchangeResult.ok ⟨some "tok", some "bearer", none⟩)
        (UserFetchResult.ok ⟨"octo", "Octo", "u", none⟩)).outcome =
      CallbackOutcome.successRedirect
        [("success", "true"), ("access_token", "tok"),
         ("user", jsonUser ⟨"octo", "Octo", "u", none⟩),
         ("scope", if truS none then (none : Option String).getD ""
           else (⟨0, "repo,user"⟩ : SessionData).scopes)] :=
  ⟨by decide, by decide, by decide, by decide,
   success_redirect_scope_fallback [("s", ⟨0, "repo,user"⟩)] "s" "c" "tok"
     (some "bearer") none ⟨0, "repo,user"⟩ ⟨"octo", "Octo", "u", none⟩
     (by decide) (by decide) (by decide) (by decide)⟩

/-! ## Lemmas about splitting -/

/-- `String.append` concatenates the underlying character lists. -/
theorem strData_append (s t : String) : (s ++ t).data = s.data ++ t.data := rfl

/-- Splitting walks through a separator-free prefix, accumulating it,
and emits it as one segment at the first separator. -/
theorem splitOnCharAux_append (sep : Char) (a : List Char) (h : sep ∉ a) :
    ∀ acc b, splitOnCharAux sep (a ++ sep :: b) acc =
      (acc.reverse ++ a) :: splitOnCharAux sep b [] := by
  induction a with
  | nil => intro acc b; simp [splitOnCharAux]
  | cons c t ih =>
    intro acc b
    have hc : ¬ c = sep := fun hcs => h (hcs ▸ List.mem_cons_self c t)
    have ht : sep ∉ t := fun hmem => h (List.mem_cons_of_mem c hmem)
    simp [splitOnCharAux, hc, ih ht, List.append_assoc]

/-- Splitting a separator-free list yields a single segment. -/
theorem splitOnCharAux_no_sep (sep : Char) (a : List Char) (h : sep ∉ a) :
    ∀ acc, splitOnCharAux sep a acc = [acc.reverse ++ a] := by
  induction a with
  | nil => intro acc; simp [splitOnCharAux]
  | cons c t ih =>
    intro acc
    have hc : ¬ c = sep := fun hcs => h (hcs ▸ List.mem_cons_self c t)
    have ht : sep ∉ t := fun hmem => h (List.mem_cons_of_mem c hmem)
    simp [splitOnCharAux, hc, ih ht, List.append_assoc]

/-- A list with exactly one separator, neither side containing it,
splits into its two sides. -/
theorem splitOnChar_single_sep (sep : Char) (a b : List Char)
    (ha : sep ∉ a) (hb : sep ∉ b) :
    splitOnChar sep (a ++ sep :: b) = [a, b] := by
  unfold splitOnChar
  rw [splitOnCharAux_append sep a ha, splitOnCharAux_no_sep sep b hb]
  simp

/-- First-occurrence splitting walks through a prefix free of the
separator. -/
theorem splitFirstAux_append (sep : Char) (a : List Char) (h : sep ∉ a) :
    ∀ acc b, splitFirstAux sep (a ++ sep :: b) acc = (acc.reverse ++ a, b) := by
  induction a with
  | nil => intro acc b; simp [splitFirstAux]
  | cons c t ih =>
    intro acc b
    have hc : ¬ c = sep := fun hcs => h (hcs ▸ List.mem_cons_self c t)
    have ht : sep ∉ t := fun hmem => h (List.mem_cons_of_mem c hmem)
    simp [splitFirstAux, hc, ih ht, List.append_assoc]

/-- Splitting at the first `sep` of `a ++ sep :: b` with `sep ∉ a`
yields `(a, b)`. -/
theorem splitFirst_append (sep : Char) (a : List Char) (h : sep ∉ a)
    (b : List Char) : splitFirst sep (a ++ sep :: b) = (a, b) := by
  unfold splitFirst
  rw [splitFirstAux_append sep a h]
  simp

/-! ## Claim about the MCP authentication middleware -/

/-- C9: `authenticateMCP` takes the second space-separated segment of the
Authorization header as the token without checking the scheme word: any
header `"<scheme> <tok>"` (spaces occurring nowhere else, `tok` non-empty)
is accepted with token `tok` — `"Basic tok"` as readily as
`"Bearer tok"` — while a header containing no space at all, or an absent
header, is rejected with HTTP 401 before any tool logic runs. -/
theorem authenticateMCP_second_segment (scheme tok hdr : String)
    (h1 : ' ' ∉ scheme.data) (h2 : ' ' ∉ tok.data) (h3 : tok ≠ "")
    (h4 : ' ' ∉ hdr.data) :
    authenticateMCP (some (scheme ++ " " ++ tok)) = some tok ∧
    authenticateMCP (some hdr) = none ∧
    authenticateMCP none = none := by
  refine ⟨?_, ?_, rfl⟩
  · have hdata : (scheme ++ " " ++ tok).data = scheme.data ++ ' ' :: tok.data := by
      rw [strData_append, strData_append]
      simp
    have hne : ¬ tok.data = [] := fun he => h3 (String.ext he)
    simp [authenticateMCP, hdata, splitOnChar_single_sep ' ' _ _ h1 h2, hne]
  · simp [authenticateMCP, splitOnChar, splitOnCharAux_no_sep ' ' hdr.data h4]

/-- Witness for C9: `"Basic tok"` is accepted with token `"tok"`,
`"Bearertok"` (no space) and a missing header are rejected. -/
theorem authenticateMCP_second_segment_witness :
    (' ' ∉ ("Basic" : String).data) ∧ (' ' ∉ ("tok" : String).data) ∧
    ("tok" : String) ≠ "" ∧ (' ' ∉ ("Bearertok" : String).data) ∧
    (authenticateMCP (some ("Basic" ++ " " ++ "tok")) = some "tok" ∧
     authenticateMCP (some "Bearertok") = none ∧
     authenticateMCP none = none) :=
  ⟨by decide, by decide, by decide, by decide,
   authenticateMCP_second_segment "Basic" "tok" "Bearertok"
     (by decide) (by decide) (by decide) (by decide)⟩

/-! ## Claims about the tool dispatcher -/

/-- Serializing an empty parameter list yields the empty query string. -/
theorem serializeParams_nil : serializeParams [] = "" := rfl

/-- C3, counterexample to the claim as stated: the catalogue's schema for
`list_repositories` declares `per_page` maximum 100 (first conjunct), yet
dispatching `{name:"list_repositories", arguments:{type:"owner",
per_page:200}}` is not rejected with any validation error — the handler
forwards `per_page=200` verbatim in the upstream query and returns the
upstream body as content: schema enums and bounds are never enforced. -/
theorem per_page_out_of_range_cex :
    ((getTool "list_repositories").bind fun t =>
      (t.properties.lookup "per_page").bind fun p => p.max) = some 100 ∧
    toolsCall "t" (some "list_repositories")
        (some { type := some "owner", per_page := some 200 })
        (fun _ => UpstreamResult.ok "[]") =
      (DispatchResponse.content [⟨"text", "[]"⟩],
       [⟨"GET", "https://api.github.com/user/repos?type=owner&per_page=200",
         githubHeaders "t", none⟩]) :=
  ⟨rfl, rfl⟩

/-- C3 (amended): dispatch performs no enum or bounds validation against
the declared `inputSchema`; a supplied out-of-range value such as
`per_page=200` (maximum 100) is stringified and forwarded unchanged as a
query parameter of exactly one upstream call, whose success body is
returned as the tool result — for every bearer token and upstream body. -/
theorem per_page_out_of_range_forwarded (token d : String) :
    toolsCall token (some "list_repositories")
        (some { type := some "owner", per_page := some 200 })
        (fun _ => UpstreamResult.ok d) =
      (DispatchResponse.content [⟨"text", d⟩],
       [mkCall token "user/repos?type=owner&per_page=200" "GET" none]) :=
  rfl

/-- C4, counterexample to the claim as stated: a `get_user` invocation
whose upstream call fails is answered with the HTTP 500 error body
`{ error: 'Tool execution failed', details: 'boom' }` — not with a
200 `ToolResult` carrying `isError=true` (no such envelope exists in the
server). -/
theorem upstream_failure_500_cex :
    toolsCall "t" (some "get_user") none (fun _ => UpstreamResult.err "boom") =
      (DispatchResponse.httpError 500 "Tool execution failed" (some "boom"),
       [⟨"GET", "https://api.github.com/user", githubHeaders "t", none⟩]) :=
  rfl

/-- Every branch of the tool switch either rejects before any network
activity (empty call list) or funnels through `runCall`: one upstream
call whose outcome alone decides the response. -/
theorem toolsCallNamed_shape (token n : String) (args : Option ToolArgs)
    (upstream : UpstreamCall → UpstreamResult) :
    (∃ e, toolsCallNamed token n args upstream = (e, [])) ∨
    (∃ call, toolsCallNamed token n args upstream = runCall call upstream) := by
  unfold toolsCallNamed
  by_cases h0 : n = ""
  · rw [if_pos h0]; exact Or.inl ⟨_, rfl⟩
  rw [if_neg h0]
  by_cases h1 : n = "get_user"
  · rw [if_pos h1]; exact Or.inr ⟨_, rfl⟩
  rw [if_neg h1]
  by_cases h2 : n = "list_repositories"
  · rw [if_pos h2]; exact Or.inr ⟨_, rfl⟩
  rw [if_neg h2]
  by_cases h3 : n = "get_repository"
  · rw [if_pos h3]
    by_cases hv : (!truS (args.bind fun a => a.owner) ||
        !truS (args.bind fun a => a.repo)) = true
    · rw [if_pos hv]; exact Or.inl ⟨_, rfl⟩
    · rw [if_neg hv]; exact Or.inr ⟨_, rfl⟩
  rw [if_neg h3]
  by_cases h4 : n = "list_issues"
  · rw [if_pos h4]
    by_cases hv : (!truS (args.bind fun a => a.owner) ||
        !truS (args.bind fun a => a.repo)) = true
    · rw [if_pos hv]; exact Or.inl ⟨_, rfl⟩
    · rw [if_neg hv]; exact Or.inr ⟨_, rfl⟩
  rw [if_neg h4]
  by_cases h5 : n = "create_issue"
  · rw [if_pos h5]
    by_cases hv : (!truS (args.bind fun a => a.owner) ||
        !truS (args.bind fun a => a.repo) ||
        !truS (args.bind fun a => a.title)) = true
    · rw [if_pos hv]; exact Or.inl ⟨_, rfl⟩
    · rw [if_neg hv]; exact Or.inr ⟨_, rfl⟩
  rw [if_neg h5]
  by_cases h6 : n = "list_pull_requests"
  · rw [if_pos h6]
    by_cases hv : (!truS (args.bind fun a => a.owner) ||
        !truS (args.bind fun a => a.repo)) = true
    · rw [if_pos hv]; exact Or.inl ⟨_, rfl⟩
    · rw [if_neg hv]; exact Or.inr ⟨_, rfl⟩
  rw [if_neg h6]
  by_cases h7 : n = "get_file_contents"
  · rw [if_pos h7]
    by_cases hv : (!truS (args.bind fun a => a.owner) ||
        !truS (args.bind fun a => a.repo) ||
        !truS (args.bind fun a => a.fpath)) = true
    · rw [if_pos hv]; exact Or.inl ⟨_, rfl⟩
    · rw [if_neg hv]; exact Or.inr ⟨_, rfl⟩
  rw [if_neg h7]
  by_cases h8 : n = "list_commits"
  · rw [if_pos h8]
    by_cases hv : (!truS (args.bind fun a => a.owner) ||
        !truS (args.bind fun a => a.repo)) = true
    · rw [if_pos hv]; exact Or.inl ⟨_, rfl⟩
    · rw [if_neg hv]; exact Or.inr ⟨_, rfl⟩
  rw [if_neg h8]
  exact Or.inl ⟨_, rfl⟩

/-- C4 (amended): the dispatcher never lets an upstream failure escape as
an uncaught exception — but it reports it as an HTTP 500 error body
`{ error: 'Tool execution failed', details: <message> }` rather than as a
200 result with `isError=true`: for every invocation (any tool name and
arguments) that issues its upstream call, if that call fails the response
is exactly the 500 envelope carrying the upstream error message. -/
theorem upstream_failure_http_500 (token msg : String) (name : Option String)
    (args : Option ToolArgs)
    (h : (toolsCall token name args fun _ => UpstreamResult.err msg).2 ≠ []) :
    (toolsCall token name args fun _ => UpstreamResult.err msg).1 =
      DispatchResponse.httpError 500 "Tool execution failed" (some msg) := by
  rcases name with _ | n
  · exact absurd rfl h
  · rcases toolsCallNamed_shape token n args (fun _ => UpstreamResult.err msg)
      with ⟨e, he⟩ | ⟨call, hcall⟩
    · rw [show toolsCall token (some n) args (fun _ => UpstreamResult.err msg) =
        toolsCallNamed token n args (fun _ => UpstreamResult.err msg) from rfl, he] at h
      exact absurd rfl h
    · rw [show toolsCall token (some n) args (fun _ => UpstreamResult.err msg) =
        toolsCallNamed token n args (fun _ => UpstreamResult.err msg) from rfl, hcall]
      rfl

/-- Witness for C4 (amended): `list_commits` with its required arguments
and a failing upstream. -/
theorem upstream_failure_http_500_witness :
    (toolsCall "t" (some "list_commits")
        (some { owner := some "octo", repo := some "hello" })
        (fun _ => UpstreamResult.err "rate limited")).2 ≠ [] ∧
    (toolsCall "t" (some "list_commits")
        (some { owner := some "octo", repo := some "hello" })
        (fun _ => UpstreamResult.err "rate limited")).1 =
      DispatchResponse.httpError 500 "Tool execution failed" (some "rate limited") :=
  ⟨by decide, upstream_failure_http_500 "t" "rate limited" (some "list_commits")
    (some { owner := some "octo", repo := some "hello" }) (by decide)⟩

/-- C8, counterexample to the claim as stated: the `list_issues` schema
declares defaults `state=open` and `per_page=30` (first two conjuncts),
yet dispatching `list_issues` with only `owner` and `repo` issues the
upstream request with an empty query — `repos/octo/hello/issues?` — not
with `state=open&per_page=30`: schema defaults are never applied. -/
theorem list_issues_defaults_cex :
    ((getTool "list_issues").bind fun t =>
      (t.properties.lookup "state").bind fun p => p.default) = some "open" ∧
    ((getTool "list_issues").bind fun t =>
      (t.properties.lookup "per_page").bind fun p => p.default) = some "30" ∧
    toolsCall "t" (some "list_issues")
        (some { owner := some "octo", repo := some "hello" })
        (fun _ => UpstreamResult.ok "[]") =
      (DispatchResponse.content [⟨"text", "[]"⟩],
       [⟨"GET", "https://api.github.com/repos/octo/hello/issues?",
         githubHeaders "t", none⟩]) ∧
    ("https://api.github.com/repos/octo/hello/issues?" : String) ≠
      "https://api.github.com/repos/octo/hello/issues?state=open&per_page=30" :=
  ⟨rfl, rfl, rfl, by decide⟩

/-- C8 (amended): parameters absent from the arguments are simply omitted
from the upstream query (each `params.append` is guarded by JS
truthiness); the schema's default values are advertisement only and are
never injected by the dispatcher: `list_issues` without `state` and
`per_page` issues its single upstream call with an empty query string,
for every token, owner, repo and upstream body. -/
theorem absent_args_omitted_from_query (token o r d : String)
    (ho : o ≠ "") (hr : r ≠ "") :
    toolsCall token (some "list_issues")
        (some { owner := some o, repo := some r })
        (fun _ => UpstreamResult.ok d) =
      (DispatchResponse.content [⟨"text", d⟩],
       [mkCall token ("repos/" ++ o ++ "/" ++ r ++ "/issues?") "GET" none]) := by
  have hto : truS (some o) = true := by simp [truS, ho]
  have htr : truS (some r) = true := by simp [truS, hr]
  simp [toolsCall, toolsCallNamed, runCall, appendIfS, appendIfN,
    serializeParams_nil, hto, htr, String.append_empty]

/-- Witness for C8 (amended) at concrete owner and repo. -/
theorem absent_args_omitted_from_query_witness :
    ("octo" : String) ≠ "" ∧ ("hello" : String) ≠ "" ∧
    toolsCall "t" (some "list_issues")
        (some { owner := some "octo", repo := some "hello" })
        (fun _ => UpstreamResult.ok "[]") =
      (DispatchResponse.content [⟨"text", "[]"⟩],
       [mkCall "t" ("repos/" ++ "octo" ++ "/" ++ "hello" ++ "/issues?") "GET" none]) :=
  ⟨by decide, by decide,
   absent_args_omitted_from_query "t" "octo" "hello" "[]" (by decide) (by decide)⟩

/-! ## Claim about the authorization URL -/

/-- C7: round-trip of authorization-URL construction. Building the
authorization URL for the scope list `["repo","user"]` (comma-joined, as
the route stores it) and state `"abc"`, then parsing the resulting URL's
query string, yields a `scope` parameter that percent-decodes to
`"repo,user"` and splits back to `["repo","user"]`, and a `state`
parameter equal to `"abc"` — for every configuration whose raw
interpolated `client_id` and whose encoded `redirect_uri` do not contain
`&` (the code interpolates `client_id` unencoded). The construction is a
pure function of the configuration and inputs: no network, no store. -/
theorem authorization_url_roundtrip (cfg : OAuthConfig)
    (h1 : '&' ∉ cfg.clientId.data)
    (h2 : '&' ∉ (encodeURIComponent cfg.redirectUri).data) :
    (queryParam (buildAuthorizationUrl cfg (joinComma ["repo", "user"]) "abc")
        "scope").map splitComma = some ["repo", "user"] ∧
    queryParam (buildAuthorizationUrl cfg (joinComma ["repo", "user"]) "abc")
        "state" = some "abc" := by
  have cScopeAtom : (encodeURIComponent (joinComma ["repo", "user"])).data =
      ("repo%2Cuser" : String).data := by decide
  have hd : (buildAuthorizationUrl cfg (joinComma ["repo", "user"]) "abc").data =
      "https://github.com/login/oauth/authorize".data ++ '?' ::
        (("client_id=".data ++ cfg.clientId.data) ++ '&' ::
         (("redirect_uri=".data ++ (encodeURIComponent cfg.redirectUri).data) ++ '&' ::
          ("scope=repo%2Cuser".data ++ '&' :: "state=abc".data))) := by
    simp only [buildAuthorizationUrl, strData_append, cScopeAtom,
      List.append_assoc, List.cons_append, List.nil_append]
  have hsplit1 : splitFirst '?'
      (buildAuthorizationUrl cfg (joinComma ["repo", "user"]) "abc").data =
      ("https://github.com/login/oauth/authorize".data,
       ("client_id=".data ++ cfg.clientId.data) ++ '&' ::
        (("redirect_uri=".data ++ (encodeURIComponent cfg.redirectUri).data) ++ '&' ::
         ("scope=repo%2Cuser".data ++ '&' :: "state=abc".data))) := by
    rw [hd]
    exact splitFirst_append '?' _ (by decide) _
  have hA : '&' ∉ ("client_id=".data ++ cfg.clientId.data) := by
    intro hmem
    rcases List.mem_append.mp hmem with hm | hm
    · exact absurd hm (by decide)
    · exact h1 hm
  have hB : '&' ∉ ("redirect_uri=".data ++ (encodeURIComponent cfg.redirectUri).data) := by
    intro hmem
    rcases List.mem_append.mp hmem with hm | hm
    · exact absurd hm (by decide)
    · exact h2 hm
  have hsplit2 : splitOnChar '&'
      (("client_id=".data ++ cfg.clientId.data) ++ '&' ::
       (("redirect_uri=".data ++ (encodeURIComponent cfg.redirectUri).data) ++ '&' ::
        ("scope=repo%2Cuser".data ++ '&' :: "state=abc".data))) =
      [("client_id=".data ++ cfg.clientId.data),
       ("redirect_uri=".data ++ (encodeURIComponent cfg.redirectUri).data),
       "scope=repo%2Cuser".data, "state=abc".data] := by
    unfold splitOnChar
    rw [splitOnCharAux_append '&' _ hA, splitOnCharAux_append '&' _ hB,
        splitOnCharAux_append '&' _ (by decide), splitOnCharAux_no_sep '&' _ (by decide)]
    simp
  have ha3 : ("client_id=".data ++ cfg.clientId.data) =
      "client_id".data ++ '=' :: cfg.clientId.data := by
    simp only [List.cons_append, List.nil_append]
  have h3 : splitFirst '=' ("client_id=".data ++ cfg.clientId.data) =
      ("client_id".data, cfg.clientId.data) := by
    rw [ha3]
    exact splitFirst_append '=' _ (by decide) _
  have ha4 : ("redirect_uri=".data ++ (encodeURIComponent cfg.redirectUri).data) =
      "redirect_uri".data ++ '=' :: (encodeURIComponent cfg.redirectUri).data := by
    simp only [List.cons_append, List.nil_append]
  have h4 : splitFirst '='
      ("redirect_uri=".data ++ (encodeURIComponent cfg.redirectUri).data) =
      ("redirect_uri".data, (encodeURIComponent cfg.redirectUri).data) := by
    rw [ha4]
    exact splitFirst_append '=' _ (by decide) _
  have hq : parseQuery (buildAuthorizationUrl cfg (joinComma ["repo", "user"]) "abc") =
      [("client_id".data, cfg.clientId.data),
       ("redirect_uri".data, (encodeURIComponent cfg.redirectUri).data),
       ("scope".data, "repo%2Cuser".data),
       ("state".data, "abc".data)] := by
    unfold parseQuery
    rw [hsplit1]
    dsimp only
    rw [hsplit2]
    simp only [List.map_cons, List.map_nil, h3, h4]
    rw [show splitFirst '=' "scope=repo%2Cuser".data =
        ("scope".data, "repo%2Cuser".data) from by decide,
      show splitFirst '=' "state=abc".data =
        ("state".data, "abc".data) from by decide]
  constructor
  · unfold queryParam
    rw [hq]
    rw [List.find?_cons_of_neg _ (by simp),
        List.find?_cons_of_neg _ (by simp),
        List.find?_cons_of_pos _ (by simp)]
    decide
  · unfold queryParam
    rw [hq]
    rw [List.find?_cons_of_neg _ (by simp),
        List.find?_cons_of_neg _ (by simp),
        List.find?_cons_of_neg _ (by simp),
        List.find?_cons_of_pos _ (by simp)]
    decide

/-- Witness for C7 at a concrete configuration. -/
theorem authorization_url_roundtrip_witness :
    ('&' ∉ ("Iv1client" : String).data) ∧
    ('&' ∉ (encodeURIComponent "http://localhost:3000/auth/callback").data) ∧
    ((queryParam (buildAuthorizationUrl ⟨"Iv1client", "http://localhost:3000/auth/callback"⟩
        (joinComma ["repo", "user"]) "abc") "scope").map splitComma =
      some ["repo", "user"] ∧
     queryParam (buildAuthorizationUrl ⟨"Iv1client", "http://localhost:3000/auth/callback"⟩
        (joinComma ["repo", "user"]) "abc") "state" = some "abc") :=
  ⟨by decide, by decide,
   authorization_url_roundtrip ⟨"Iv1client", "http://localhost:3000/auth/callback"⟩
     (by decide) (by decide)⟩

end GithubMcpWeb
